import Mathlib

/-!
# Nimbess CNI plugin: request translation and result assembly

A shallow embedding of `cmd/nimbess-cni.go`.  The plugin's own functions
(`parseCNIConfig`, `initLog`, `grpcConnect`, `cmdAdd`, `cmdDel`, `cmdCheck`)
are Lean functions.  Everything the plugin calls in other packages
(`json.Unmarshal`, `os.OpenFile`, `types.LoadArgs`, `ipam.ExecAdd`,
`ipam.ExecDel`, `current.NewResultFromResult`, `grpc.Dial`, the remote
`Add`/`Delete` calls, `net.ParseCIDR`, `net.ParseIP`, `Result.Print`) is a
field of the record `Env`; every call with an effect outside the process is
recorded in a trace of `Event`s, in program order.
-/

namespace Nimbess

/-! ## Data model -/

/-- A Go `error` value, identified with its message; `nil` is `none`. -/
abbrev Error := String

/-- A Go `[]byte`. -/
abbrev Bytes := List UInt8

/-- The bytes of an ASCII text. -/
def bytesOf (s : String) : Bytes := s.toList.map (fun c => c.toNat.toUInt8)

/-- A Go `net.IP` (a byte slice); the nil slice is `[]`. -/
abbrev IP := List Nat

/-- A Go `net.IPMask`. -/
abbrev IPMask := List Nat

/-- A Go `net.IPNet`. -/
structure IPNet where
  IP : IP := []
  Mask : IPMask := []
deriving DecidableEq

/-- A value stored behind Go's `interface{}` by `json.Unmarshal`
(numbers are kept as their literal text). -/
inductive JsonValue where
  | null
  | bool (b : Bool)
  | number (text : String)
  | string (s : String)
  | array (items : List JsonValue)
  | object (fields : List (String × JsonValue))

/-- The CNI library's `types.DNS`. -/
structure DNS where
  Nameservers : List String := []
  Domain : String := ""
  Search : List String := []
  Options : List String := []
deriving DecidableEq

/-- The `CNIReply_DNS` message of the remote protocol. -/
structure CNIReply_DNS where
  Nameservers : List String := []
  Domain : String := ""
  Search : List String := []
  Options : List String := []
deriving DecidableEq

/-- The CNI library's `types.IPAM`; `Type_` is its `Type` field. -/
structure IPAM where
  Type_ : String := ""
deriving DecidableEq

/-- The CNI library's `types.NetConf`, which `nimbessConfig` embeds. -/
structure NetConf where
  CNIVersion : String := ""
  Name : String := ""
  Type_ : String := ""
  Capabilities : List (String × Bool) := []
  IPAM : IPAM := {}
  DNS : DNS := {}

/-- The source's `nimbessNetworkConfig`. -/
structure nimbessNetworkConfig where
  CNIVersion : String := ""
  Name : String := ""
  Type_ : String := ""
  Args : List (String × String) := []
  IpMasq : Bool := false
  Dns : Option CNIReply_DNS := none

/-- The source's `nimbessConfig`: the embedded `types.NetConf` and the
plugin's own fields.  `PrevResult` is a pointer, `none` when nil. -/
structure nimbessConfig extends NetConf where
  PrevResult : Option (List (String × JsonValue)) := none
  GrpcServer : String := ""
  LogFile : String := ""
  EtcdEndpoints : String := ""
  NetworkConfig : nimbessNetworkConfig := {}
  IpamType : String := ""

/-- The source's `k8sArgs` (with the `IgnoreUnknown` flag of the embedded
`types.CommonArgs`). -/
structure k8sArgs where
  IgnoreUnknown : Bool := false
  IP : IP := []
  K8S_POD_NAME : String := ""
  K8S_POD_NAMESPACE : String := ""
  K8S_POD_INFRA_CONTAINER_ID : String := ""
deriving DecidableEq

/-- The fields of `skel.CmdArgs`. -/
structure CmdArgs where
  ContainerID : String := ""
  Netns : String := ""
  IfName : String := ""
  Args : String := ""
  Path : String := ""
  StdinData : Bytes := []
deriving DecidableEq

/-- The `CNIRequest_NetworkConfig` message. -/
structure CNIRequest_NetworkConfig where
  CniVersion : String := ""
  Name : String := ""
  Type_ : String := ""
  Args : List (String × String) := []
  IpMasq : Bool := false
  Dns : Option CNIReply_DNS := none
deriving DecidableEq

/-- The `CNIRequest` message. -/
structure CNIRequest where
  Version : String := ""
  ContainerId : String := ""
  NetworkNamespace : String := ""
  InterfaceName : String := ""
  NetworkConfig : Option CNIRequest_NetworkConfig := none
  ExtraArguments : List (String × String) := []
  IpamType : String := ""
  PodName : String := ""
  PodNamespace : String := ""
deriving DecidableEq

/-- The version tag of a reply address, `CNIReply_Interface_IP_Version`; a
protocol enumeration can also arrive with a number that names neither. -/
inductive IPVersion where
  | IPV4
  | IPV6
  | unrecognized (value : Nat)
deriving DecidableEq

/-- The `CNIReply_Interface_IP` message. -/
structure CNIReply_Interface_IP where
  Version : IPVersion := IPVersion.IPV4
  Address : String := ""
  Gateway : String := ""
deriving DecidableEq

/-- The `CNIReply_Interface` message. -/
structure CNIReply_Interface where
  Name : String := ""
  Mac : String := ""
  Sandbox : String := ""
  IpAddresses : List CNIReply_Interface_IP := []
deriving DecidableEq

/-- The `CNIReply_Route` message. -/
structure CNIReply_Route where
  Dst : String := ""
  Gw : String := ""
deriving DecidableEq

/-- The fields of the `CNIReply` message that the plugin reads. -/
structure CNIReply where
  Interfaces : List CNIReply_Interface := []
  Routes : List CNIReply_Route := []
  Dns : List CNIReply_DNS := []
deriving DecidableEq

/-- The CNI library's `current.Interface`. -/
structure Interface where
  Name : String := ""
  Mac : String := ""
  Sandbox : String := ""
deriving DecidableEq

/-- The CNI library's `current.IPConfig`; `Interface` is a `*int`. -/
structure IPConfig where
  Version : String := ""
  Interface : Option Nat := none
  Address : IPNet := {}
  Gateway : IP := []
deriving DecidableEq

/-- The CNI library's `types.Route`. -/
structure Route where
  Dst : IPNet := {}
  GW : IP := []
deriving DecidableEq

/-- The CNI library's `current.Result`. -/
structure Result where
  CNIVersion : String := ""
  Interfaces : List Interface := []
  IPs : List IPConfig := []
  Routes : List Route := []
  DNS : DNS := {}
deriving DecidableEq

/-- The calls that leave the process, in the order the plugin makes them. -/
inductive Event where
  | openLog (fileName : String)
  | execAdd (ipamType : String) (stdin : Bytes)
  | execDel (ipamType : String) (stdin : Bytes)
  | dialUnix (grpcServer : String)
  | dialTCP (grpcServer : String)
  | connClose
  | remoteAdd (req : CNIRequest)
  | remoteDelete (req : CNIRequest)
  | print (res : Result)
deriving DecidableEq

/-- The packages the plugin calls.  `TypesResult` is the library's
version-independent `types.Result`.  A function that returns only an `error`
gives `none` for nil.  `loopVarPerIteration` says whether the compiler gives a
`for` loop one variable per iteration (Go 1.22 on) or one for the whole loop. -/
structure Env where
  TypesResult : Type
  unmarshal : Bytes → Except Error nimbessConfig
  openFile : String → Option Error
  loadArgs : String → Except Error k8sArgs
  execAdd : String → Bytes → Except Error TypesResult
  execDel : String → Bytes → Option Error
  newResultFromResult : TypesResult → Except Error Result
  dialUnix : String → Option Error
  dialTCP : String → Option Error
  remoteAdd : CNIRequest → Except Error CNIReply
  remoteDelete : CNIRequest → Option Error
  parseCIDR : String → Except Error (IP × IPNet)
  parseIP : String → IP
  print : Result → Option Error
  loopVarPerIteration : Bool

/-- What a command leaves behind: the `error` it returns and the calls made. -/
structure Outcome where
  ret : Option Error
  trace : List Event
deriving DecidableEq

/-! ## The plugin -/

/-- The source's `defaultLogFile`. -/
def defaultLogFile : String := "/var/log/nimbess/nimbess-cni.log"

/-- The source's `parseCNIConfig`; `unmarshal` is `json.Unmarshal` into a fresh
`nimbessConfig`. -/
def parseCNIConfig (unmarshal : Bytes → Except Error nimbessConfig) (bytes : Bytes) :
    Except Error nimbessConfig :=
  match unmarshal bytes with
  | .error err => .error ("failed to load plugin config: " ++ err)
  | .ok conf =>
    if conf.PrevResult.isSome then
      .error "CNI chaining is not supported by this plugin"
    else if conf.GrpcServer = "" then
      .error ("\"grpcServer\" field is required. " ++
        "It specifies where the CNI requests should be forwarded to")
    else
      .ok conf

/-- The source's `initLog`: the file named, or `defaultLogFile` when the name
is empty, is opened for appending.  The result pairs the returned `error`
with the call made. -/
def initLog (env : Env) (fileName : String) : Option Error × List Event :=
  let fileName := if fileName = "" then defaultLogFile else fileName
  (env.openFile fileName, [Event.openLog fileName])

/-- The source's `grpcConnect`: a unix-domain socket when the address starts
with `/`, a TCP socket otherwise.  The result pairs the returned `error` with
the call made. -/
def grpcConnect (env : Env) (grpcServer : String) : Option Error × List Event :=
  if grpcServer ≠ "" ∧ grpcServer.toList.head? = some '/' then
    (env.dialUnix grpcServer, [Event.dialUnix grpcServer])
  else
    (env.dialTCP grpcServer, [Event.dialTCP grpcServer])

/-- The integer read through the pointer `&ifidx` taken in iteration `i` of the
loop `for ifidx, iface := range r.Interfaces`, once the loop over `n`
interfaces has run to its end.  With one variable per iteration it is `i`;
with one variable for the whole loop (Go before 1.22) every pointer shares the
variable, which then holds the last index. -/
def ifidxSeen (perIteration : Bool) (n i : Nat) : Nat :=
  if perIteration then i else n - 1

/-- The loop `for _, ip := range iface.IpAddresses` of `cmdAdd`.  `ifidx` is
what `Interface: &ifidx` reads as.  The `err` of this block is declared by
`ipAddr, ipNet, err := net.ParseCIDR(ip.Address)`; it is nil when tested after
`net.ParseIP`, so that test never returns. -/
def processIpAddresses (env : Env) (ifidx : Nat) :
    List CNIReply_Interface_IP → Result → Except Error Result
  | [], cniResult => .ok cniResult
  | ip :: rest, cniResult =>
    match env.parseCIDR ip.Address with
    | .error err => .error err
    | .ok (ipAddr, ipNet) =>
      let ipNet : IPNet := { ipNet with IP := ipAddr }
      let gwAddr : IP := if ip.Gateway ≠ "" then env.parseIP ip.Gateway else []
      let ver : String := if ip.Version = IPVersion.IPV6 then "6" else "4"
      processIpAddresses env ifidx rest
        { cniResult with
          IPs := cniResult.IPs ++
            [{ Address := ipNet, Version := ver, Interface := some ifidx, Gateway := gwAddr }] }

/-- The loop `for ifidx, iface := range r.Interfaces` of `cmdAdd`, from index
`ifidx` on; `n` is `len(r.Interfaces)`. -/
def processInterfaces (env : Env) (n : Nat) :
    Nat → List CNIReply_Interface → Result → Except Error Result
  | _, [], cniResult => .ok cniResult
  | ifidx, iface :: rest, cniResult =>
    let cniResult : Result :=
      { cniResult with
        Interfaces := cniResult.Interfaces ++
          [{ Name := iface.Name, Mac := iface.Mac, Sandbox := iface.Sandbox }] }
    match processIpAddresses env (ifidxSeen env.loopVarPerIteration n ifidx)
        iface.IpAddresses cniResult with
    | .error err => .error err
    | .ok cniResult => processInterfaces env n (ifidx + 1) rest cniResult

/-- The loop `for _, route := range r.Routes` of `cmdAdd`.  The `err` of this
block is the one of `net.ParseCIDR(route.Dst)`; it is nil when tested after
`net.ParseIP(route.Gw)`, so that test never returns. -/
def processRoutes (env : Env) : List CNIReply_Route → Result → Except Error Result
  | [], cniResult => .ok cniResult
  | route :: rest, cniResult =>
    match env.parseCIDR route.Dst with
    | .error err => .error err
    | .ok (_, dstIP) =>
      let gwAddr : IP := env.parseIP route.Gw
      processRoutes env rest
        { cniResult with Routes := cniResult.Routes ++ [{ Dst := dstIP, GW := gwAddr }] }

/-- The loop `for _, dns := range r.Dns` of `cmdAdd`. -/
def processDns : List CNIReply_DNS → Result → Result
  | [], cniResult => cniResult
  | dns :: rest, cniResult =>
    processDns rest
      { cniResult with
        DNS := { Nameservers := dns.Nameservers, Domain := dns.Domain,
                 Search := dns.Search, Options := dns.Options } }

/-- The state in which the body of `cmdAdd` returns: the value returned, the
function-level variable `err` that the deferred closure reads, whether
`defer conn.Close()` was reached, and the calls made so far. -/
structure Frame where
  ret : Option Error
  err : Option Error
  conn : Bool
  trace : List Event
deriving DecidableEq

/-- The body of `cmdAdd` from `cniResult.IPs = ipamResult.IPs` to the end.
`grpcConnect` and `c.Add` assign the function-level `err`; the loops after
them declare an `err` of their own, and `return cniResult.Print()` assigns
none. -/
def addRemote (env : Env) (conf : nimbessConfig) (cniRequest : CNIRequest)
    (cniResult ipamResult : Result) (trace : List Event) : Frame :=
  let cniResult : Result :=
    { cniResult with
      IPs := ipamResult.IPs.map (fun ipc => { ipc with Interface := some 0 }),
      Routes := ipamResult.Routes,
      DNS := ipamResult.DNS }
  match grpcConnect env conf.GrpcServer with
  | (some err, dialled) => ⟨some err, some err, false, trace ++ dialled⟩
  | (none, dialled) =>
    let trace := trace ++ dialled ++ [Event.remoteAdd cniRequest]
    match env.remoteAdd cniRequest with
    | .error err => ⟨some err, some err, true, trace⟩
    | .ok r =>
      match processInterfaces env r.Interfaces.length 0 r.Interfaces cniResult with
      | .error err => ⟨some err, none, true, trace⟩
      | .ok cniResult =>
        match processRoutes env r.Routes cniResult with
        | .error err => ⟨some err, none, true, trace⟩
        | .ok cniResult =>
          let cniResult := processDns r.Dns cniResult
          ⟨env.print cniResult, none, true, trace ++ [Event.print cniResult]⟩

/-- The body of `cmdAdd` after the deferred closure is set up.  The two blocks
guarded by `cniRequest.IpamType != "nimbess"` are taken together.
`ipam.ExecAdd` and `NewResultFromResult` assign the function-level `err`;
`return errors.New(...)` does not. -/
def addWorkflow (env : Env) (args : CmdArgs) (conf : nimbessConfig)
    (cniRequest : CNIRequest) (cniResult : Result) (trace : List Event) : Frame :=
  if cniRequest.IpamType ≠ "nimbess" then
    let trace := trace ++ [Event.execAdd cniRequest.IpamType args.StdinData]
    match env.execAdd cniRequest.IpamType args.StdinData with
    | .error err => ⟨some err, some err, false, trace⟩
    | .ok ipamRequest =>
      match env.newResultFromResult ipamRequest with
      | .error err => ⟨some err, some err, false, trace⟩
      | .ok ipamResult =>
        if ipamResult.IPs.length = 0 then
          ⟨some "IPAM plugin returned missing IP config", none, false, trace⟩
        else
          addRemote env conf cniRequest cniResult ipamResult trace
  else
    addRemote env conf cniRequest cniResult {} trace

/-- The request that `cmdAdd` builds. -/
def addRequest (args : CmdArgs) (conf : nimbessConfig) (k8Arg : k8sArgs) : CNIRequest :=
  let cniRequestNW : CNIRequest_NetworkConfig :=
    { CniVersion := conf.CNIVersion,
      Name := conf.NetworkConfig.Name,
      Type_ := conf.NetworkConfig.Type_,
      Args := conf.NetworkConfig.Args,
      IpMasq := conf.NetworkConfig.IpMasq,
      Dns := conf.NetworkConfig.Dns }
  { Version := conf.CNIVersion,
    ContainerId := args.ContainerID,
    NetworkNamespace := args.Netns,
    InterfaceName := args.IfName,
    NetworkConfig := some cniRequestNW,
    ExtraArguments := cniRequestNW.Args,
    IpamType := conf.IPAM.Type_,
    PodName := k8Arg.K8S_POD_NAME,
    PodNamespace := k8Arg.K8S_POD_NAMESPACE }

/-- The deferred calls of `cmdAdd`, last registered first: `conn.Close()`, then
the closure that calls `ipam.ExecDel` when the function-level `err` is not nil
(the error of `ExecDel` itself is dropped). -/
def addDeferred (cniRequest : CNIRequest) (args : CmdArgs) (f : Frame) : Outcome :=
  let trace := if f.conn then f.trace ++ [Event.connClose] else f.trace
  if f.err.isSome then
    ⟨f.ret, trace ++ [Event.execDel cniRequest.IpamType args.StdinData]⟩
  else
    ⟨f.ret, trace⟩

/-- The source's `cmdAdd`. -/
def cmdAdd (env : Env) (args : CmdArgs) : Outcome :=
  match parseCNIConfig env.unmarshal args.StdinData with
  | .error err => ⟨some err, []⟩
  | .ok conf =>
    match initLog env conf.LogFile with
    | (some err, opened) => ⟨some err, opened⟩
    | (none, opened) =>
      match env.loadArgs args.Args with
      | .error err => ⟨some err, opened⟩
      | .ok k8Arg =>
        let cniRequest := addRequest args conf k8Arg
        let cniResult : Result := { CNIVersion := conf.CNIVersion }
        addDeferred cniRequest args (addWorkflow env args conf cniRequest cniResult opened)

/-- The source's `cmdDel`.  Its `cniRequest` is built without an `IpamType`,
and `ipam.ExecDel` is given `cniRequest.IpamType`. -/
def cmdDel (env : Env) (args : CmdArgs) : Outcome :=
  match parseCNIConfig env.unmarshal args.StdinData with
  | .error err => ⟨some err, []⟩
  | .ok conf =>
    match initLog env conf.LogFile with
    | (some err, opened) => ⟨some err, opened⟩
    | (none, opened) =>
      match grpcConnect env conf.GrpcServer with
      | (some err, dialled) => ⟨some err, opened ++ dialled⟩
      | (none, dialled) =>
        let cniRequestNW : CNIRequest_NetworkConfig := {}
        let cniRequest : CNIRequest :=
          { Version := conf.CNIVersion,
            ContainerId := args.ContainerID,
            NetworkNamespace := args.Netns,
            InterfaceName := args.IfName,
            NetworkConfig := some cniRequestNW,
            ExtraArguments := cniRequestNW.Args }
        let sent : CNIRequest :=
          { Version := conf.CNIVersion,
            ContainerId := args.ContainerID,
            InterfaceName := args.IfName,
            NetworkNamespace := args.Netns,
            NetworkConfig := some cniRequestNW,
            ExtraArguments := cniRequestNW.Args }
        let trace := opened ++ dialled ++ [Event.remoteDelete sent]
        match env.remoteDelete sent with
        | some err => ⟨some err, trace ++ [Event.connClose]⟩
        | none =>
          let trace := trace ++ [Event.execDel cniRequest.IpamType args.StdinData]
          match env.execDel cniRequest.IpamType args.StdinData with
          | some err => ⟨some err, trace ++ [Event.connClose]⟩
          | none => ⟨none, trace ++ [Event.connClose]⟩

/-- The source's `cmdCheck`. -/
def cmdCheck (_args : CmdArgs) : Option Error := none

/-! ## A concrete world

Concrete values for the fields of `Env`, used to run the plugin on explicit
inputs. -/

/-- The pieces of a text between occurrences of `sep`. -/
def splitChars (sep : Char) : List Char → List (List Char)
  | [] => [[]]
  | c :: cs =>
    if c = sep then [] :: splitChars sep cs
    else
      match splitChars sep cs with
      | [] => [[c]]
      | field :: fields => (c :: field) :: fields

/-- The number written by a non-empty string of decimal digits. -/
def decimal (cs : List Char) : Option Nat :=
  if cs ≠ [] ∧ cs.all Char.isDigit then
    some (cs.foldl (fun n c => 10 * n + (c.toNat - '0'.toNat)) 0)
  else none

/-- One field of a dotted-decimal IPv4 address: decimal digits, no leading
zero, at most 255. -/
def octet (cs : List Char) : Option Nat :=
  match decimal cs with
  | some n => if n ≤ 255 ∧ (cs.length = 1 ∨ cs.head? ≠ some '0') then some n else none
  | none => none

/-- A dotted-decimal IPv4 address as its four octets. -/
def parseIPv4 (cs : List Char) : Option IP :=
  match splitChars '.' cs with
  | [a, b, c, d] =>
    match octet a, octet b, octet c, octet d with
    | some a, some b, some c, some d => some [a, b, c, d]
    | _, _, _, _ => none
  | _ => none

/-- Go's `net.CIDRMask(ones, 8 * n)`, for `ones ≤ 8 * n`. -/
def cidrMask : Nat → Nat → IPMask
  | _, 0 => []
  | ones, n + 1 => (if 8 ≤ ones then 255 else 255 - (255 >>> ones)) :: cidrMask (ones - 8) n

/-- Go's `IP.Mask`: the address with the mask applied byte by byte. -/
def maskIP (ip : IP) (mask : IPMask) : IP :=
  List.zipWith (fun x y => x &&& y) ip mask

/-- Go's `net.ParseIP` on IPv4 text: the address, or nil for any other text
(an IPv4 address is written as its four octets). -/
def parseIPText (s : String) : IP :=
  (parseIPv4 s.toList).getD []

/-- Go's `net.ParseCIDR` on IPv4 text `a.b.c.d/n`: the host address and the
network (address masked, mask); any other text is an error. -/
def parseCIDRText (s : String) : Except Error (IP × IPNet) :=
  match splitChars '/' s.toList with
  | [addr, mask] =>
    match parseIPv4 addr, decimal mask with
    | some ip, some n =>
      if n ≤ 32 then
        let m := cidrMask n 4
        .ok (ip, { IP := maskIP ip m, Mask := m })
      else .error ("invalid CIDR address: " ++ s)
    | _, _ => .error ("invalid CIDR address: " ++ s)
  | _ => .error ("invalid CIDR address: " ++ s)

/-- A configuration document: self-allocation mode. -/
def docSelf : Bytes :=
  bytesOf "\x7b\"cniVersion\":\"0.3.1\",\"grpcServer\":\"localhost:9111\",\"ipam\":\x7b\"type\":\"nimbess\"\x7d\x7d"

/-- A configuration document: allocation delegated to `host-local`. -/
def docHostLocal : Bytes :=
  bytesOf "\x7b\"cniVersion\":\"0.3.1\",\"grpcServer\":\"localhost:9111\",\"ipam\":\x7b\"type\":\"host-local\"\x7d\x7d"

/-- A configuration document without `grpcServer`. -/
def docNoServer : Bytes :=
  bytesOf "\x7b\"cniVersion\":\"0.3.1\",\"ipam\":\x7b\"type\":\"nimbess\"\x7d\x7d"

/-- A configuration document with a non-null `prevResult`. -/
def docChained : Bytes :=
  bytesOf "\x7b\"cniVersion\":\"0.3.1\",\"grpcServer\":\"localhost:9111\",\"prevResult\":\x7b\x7d\x7d"

/-- A configuration document whose `ipamType` and `ipam.type` differ. -/
def docTwoModes : Bytes :=
  bytesOf "\x7b\"cniVersion\":\"0.3.1\",\"grpcServer\":\"localhost:9111\",\"ipamType\":\"nimbess\",\"ipam\":\x7b\"type\":\"host-local\"\x7d\x7d"

/-- The configuration `json.Unmarshal` decodes from `docSelf`. -/
def confSelf : nimbessConfig :=
  { CNIVersion := "0.3.1", GrpcServer := "localhost:9111", IPAM := { Type_ := "nimbess" } }

/-- The configuration `json.Unmarshal` decodes from `docHostLocal`. -/
def confHostLocal : nimbessConfig :=
  { CNIVersion := "0.3.1", GrpcServer := "localhost:9111", IPAM := { Type_ := "host-local" } }

/-- The configuration `json.Unmarshal` decodes from `docTwoModes`. -/
def confTwoModes : nimbessConfig :=
  { CNIVersion := "0.3.1", GrpcServer := "localhost:9111", IpamType := "nimbess",
    IPAM := { Type_ := "host-local" } }

/-- A configuration document whose `ipamType` and `ipam.type` are both
`host-local`. -/
def docBothModes : Bytes :=
  bytesOf "\x7b\"cniVersion\":\"0.3.1\",\"grpcServer\":\"localhost:9111\",\"ipamType\":\"host-local\",\"ipam\":\x7b\"type\":\"host-local\"\x7d\x7d"

/-- The configuration `json.Unmarshal` decodes from `docBothModes`. -/
def confBothModes : nimbessConfig :=
  { CNIVersion := "0.3.1", GrpcServer := "localhost:9111", IpamType := "host-local",
    IPAM := { Type_ := "host-local" } }

/-- The values of `json.Unmarshal` on the documents above; every other buffer
is taken to be undecodable. -/
def unmarshalTable (bytes : Bytes) : Except Error nimbessConfig :=
  if bytes = docSelf then .ok confSelf
  else if bytes = docHostLocal then .ok confHostLocal
  else if bytes = docNoServer then
    .ok { CNIVersion := "0.3.1", IPAM := { Type_ := "nimbess" } }
  else if bytes = docChained then
    .ok { CNIVersion := "0.3.1", GrpcServer := "localhost:9111", PrevResult := some [] }
  else if bytes = docTwoModes then .ok confTwoModes
  else if bytes = docBothModes then .ok confBothModes
  else .error "unexpected end of JSON input"

/-- The address `10.0.0.7/24` with gateway `10.0.0.1`, as an allocator hands it
out (bound to no interface yet). -/
def allocatedIP : IPConfig :=
  { Version := "4", Interface := none,
    Address := { IP := [10, 0, 0, 7], Mask := [255, 255, 255, 0] },
    Gateway := [10, 0, 0, 1] }

/-- A world in which every call succeeds: the allocator `host-local` hands out
`result`, already in the current format, and the remote service answers every
`Add` with `reply`.  Loop variables are per loop. -/
def world (result : Result) (reply : CNIReply) : Env where
  TypesResult := Result
  unmarshal := unmarshalTable
  openFile := fun _ => none
  loadArgs := fun _ => .ok {}
  execAdd := fun ipamType _ =>
    if ipamType = "host-local" then .ok result
    else .error ("failed to find plugin \"" ++ ipamType ++ "\" in path")
  execDel := fun ipamType _ =>
    if ipamType = "host-local" then none
    else some ("failed to find plugin \"" ++ ipamType ++ "\" in path")
  newResultFromResult := fun r => .ok r
  dialUnix := fun _ => none
  dialTCP := fun _ => none
  remoteAdd := fun _ => .ok reply
  remoteDelete := fun _ => none
  parseCIDR := parseCIDRText
  parseIP := parseIPText
  print := fun _ => none
  loopVarPerIteration := false

/-- The runtime's arguments for container `c1`, with `stdin` on standard
input. -/
def argsFor (stdin : Bytes) : CmdArgs :=
  { ContainerID := "c1", Netns := "/var/run/netns/c1", IfName := "eth0", StdinData := stdin }

/-- Whether a call goes to the remote service: a dial or a remote `Add` or
`Delete`. -/
def Event.isRemote : Event → Bool
  | .dialUnix _ => true
  | .dialTCP _ => true
  | .remoteAdd _ => true
  | .remoteDelete _ => true
  | _ => false

/-- The results printed in a trace. -/
def printed : List Event → List Result
  | [] => []
  | .print res :: rest => res :: printed rest
  | _ :: rest => printed rest

/-- The release calls in a trace, each with its mode identifier and bytes. -/
def released : List Event → List (String × Bytes)
  | [] => []
  | .execDel ipamType stdin :: rest => (ipamType, stdin) :: released rest
  | _ :: rest => released rest

/-- A reply with one interface carrying `10.0.0.5/24`, gateway `10.0.0.1`. -/
def replyOneAddress : CNIReply :=
  { Interfaces := [{ Name := "eth0", Mac := "0a:58:0a:00:00:05", Sandbox := "/var/run/netns/c1",
                     IpAddresses := [{ Version := IPVersion.IPV4, Address := "10.0.0.5/24",
                                       Gateway := "10.0.0.1" }] }] }

/-- A reply with two interfaces, each carrying one address. -/
def replyTwoInterfaces : CNIReply :=
  { Interfaces := [{ Name := "eth0", IpAddresses := [{ Address := "10.0.0.5/24" }] },
                   { Name := "eth1", IpAddresses := [{ Address := "10.0.1.5/24" }] }] }

/-- A reply whose only address is the text `not-an-ip`. -/
def replyBadAddress : CNIReply :=
  { Interfaces := [{ Name := "eth0", IpAddresses := [{ Address := "not-an-ip" }] }] }

/-- A reply whose only route has the gateway text `not-an-ip`. -/
def replyBadRouteGateway : CNIReply :=
  { Routes := [{ Dst := "10.1.0.0/16", Gw := "not-an-ip" }] }

/-- A reply whose only route has the destination text `not-a-cidr`. -/
def replyBadRouteDst : CNIReply :=
  { Routes := [{ Dst := "not-a-cidr", Gw := "10.0.0.1" }] }

/-- A reply with two DNS entries. -/
def replyTwoDns : CNIReply :=
  { Dns := [{ Nameservers := ["10.0.0.2"], Domain := "first.example", Search := ["a.example"],
              Options := ["ndots:1"] },
            { Nameservers := ["10.0.0.3"], Domain := "second.example", Search := [],
              Options := [] }] }

/-- The world `world result reply` with one loop variable per iteration. -/
def worldPerIteration (result : Result) (reply : CNIReply) : Env :=
  { world result reply with loopVarPerIteration := true }

/-- The request `cmdAdd` sends for `argsFor docSelf`. -/
def requestSelf : CNIRequest :=
  { Version := "0.3.1", ContainerId := "c1", NetworkNamespace := "/var/run/netns/c1",
    InterfaceName := "eth0", NetworkConfig := some { CniVersion := "0.3.1" },
    IpamType := "nimbess" }

/-- The request `cmdAdd` sends for `argsFor docHostLocal`. -/
def requestHostLocal : CNIRequest :=
  { Version := "0.3.1", ContainerId := "c1", NetworkNamespace := "/var/run/netns/c1",
    InterfaceName := "eth0", NetworkConfig := some { CniVersion := "0.3.1" },
    IpamType := "host-local" }

/-- The IP configuration translated from the address of `replyOneAddress`. -/
def translatedOneAddress : IPConfig :=
  { Version := "4", Interface := some 0,
    Address := { IP := [10, 0, 0, 5], Mask := [255, 255, 255, 0] },
    Gateway := [10, 0, 0, 1] }

/-- The result printed for `replyOneAddress` in self-allocation mode. -/
def resultOneAddress : Result :=
  { CNIVersion := "0.3.1",
    Interfaces := [{ Name := "eth0", Mac := "0a:58:0a:00:00:05", Sandbox := "/var/run/netns/c1" }],
    IPs := [translatedOneAddress] }

/-- The result printed for `replyOneAddress` after `host-local` allocated
`allocatedIP`. -/
def resultAllocated : Result :=
  { CNIVersion := "0.3.1",
    Interfaces := [{ Name := "eth0", Mac := "0a:58:0a:00:00:05", Sandbox := "/var/run/netns/c1" }],
    IPs := [{ allocatedIP with Interface := some 0 }, translatedOneAddress] }

/-- The result printed for `replyTwoDns` in self-allocation mode. -/
def resultTwoDns : Result :=
  { CNIVersion := "0.3.1",
    DNS := { Nameservers := ["10.0.0.3"], Domain := "second.example", Search := [],
             Options := [] } }

/-! ## Closed forms of the loops and of a successful run -/

/-- The IP configuration that the loop over `iface.IpAddresses` appends for
`ip` when `net.ParseCIDR` accepts its address text. -/
def builtIP (env : Env) (seen : Nat) (ip : CNIReply_Interface_IP) : IPConfig :=
  match env.parseCIDR ip.Address with
  | .ok (ipAddr, ipNet) =>
    { Address := { ipNet with IP := ipAddr },
      Version := if ip.Version = IPVersion.IPV6 then "6" else "4",
      Interface := some seen,
      Gateway := if ip.Gateway ≠ "" then env.parseIP ip.Gateway else [] }
  | .error _ => {}

/-- The route that the loop over `r.Routes` appends for `route` when
`net.ParseCIDR` accepts its destination text. -/
def builtRoute (env : Env) (route : CNIReply_Route) : Route :=
  match env.parseCIDR route.Dst with
  | .ok (_, dstIP) => { Dst := dstIP, GW := env.parseIP route.Gw }
  | .error _ => {}

/-- The interface record that `cmdAdd` appends for a reply interface. -/
def builtInterface (iface : CNIReply_Interface) : Interface :=
  { Name := iface.Name, Mac := iface.Mac, Sandbox := iface.Sandbox }

/-- The IP configurations that the loop over `r.Interfaces` appends, from
index `ifidx` on, when every address text is accepted. -/
def translatedIPs (env : Env) (n : Nat) : Nat → List CNIReply_Interface → List IPConfig
  | _, [] => []
  | ifidx, iface :: rest =>
    iface.IpAddresses.map (builtIP env (ifidxSeen env.loopVarPerIteration n ifidx)) ++
      translatedIPs env n (ifidx + 1) rest

/-- The DNS block after the loop over `r.Dns`, started from `dflt`. -/
def lastDns (dflt : DNS) : List CNIReply_DNS → DNS
  | [] => dflt
  | dns :: rest =>
    lastDns { Nameservers := dns.Nameservers, Domain := dns.Domain,
              Search := dns.Search, Options := dns.Options } rest

/-- The result that a successful add prints. -/
def finalResult (env : Env) (conf : nimbessConfig) (ipamResult : Result) (r : CNIReply) :
    Result :=
  { CNIVersion := conf.CNIVersion,
    Interfaces := r.Interfaces.map builtInterface,
    IPs := ipamResult.IPs.map (fun ipc => { ipc with Interface := some 0 }) ++
      translatedIPs env r.Interfaces.length 0 r.Interfaces,
    Routes := ipamResult.Routes ++ r.Routes.map (builtRoute env),
    DNS := lastDns ipamResult.DNS r.Dns }

/-- The allocator's part of a successful add. -/
def allocation (env : Env) (args : CmdArgs) (conf : nimbessConfig) (ipamResult : Result)
    (events : List Event) : Prop :=
  (conf.IPAM.Type_ = "nimbess" ∧ ipamResult = {} ∧ events = []) ∨
  (conf.IPAM.Type_ ≠ "nimbess" ∧ ipamResult.IPs ≠ [] ∧
    events = [Event.execAdd conf.IPAM.Type_ args.StdinData] ∧
    ∃ ipamRequest, env.execAdd conf.IPAM.Type_ args.StdinData = .ok ipamRequest ∧
      env.newResultFromResult ipamRequest = .ok ipamResult)

/-- A successful run of `cmdAdd`, stage by stage. -/
structure Succeeded (env : Env) (args : CmdArgs) (conf : nimbessConfig) (k8Arg : k8sArgs)
    (ipamResult : Result) (r : CNIReply) (events : List Event) : Prop where
  parsed : parseCNIConfig env.unmarshal args.StdinData = .ok conf
  logged : (initLog env conf.LogFile).1 = none
  loaded : env.loadArgs args.Args = .ok k8Arg
  allocated : allocation env args conf ipamResult events
  connected : (grpcConnect env conf.GrpcServer).1 = none
  replied : env.remoteAdd (addRequest args conf k8Arg) = .ok r
  addresses : ∀ iface ∈ r.Interfaces, ∀ ip ∈ iface.IpAddresses,
    ∃ ipAddr ipNet, env.parseCIDR ip.Address = .ok (ipAddr, ipNet)
  routes : ∀ route ∈ r.Routes, ∃ ipAddr dstIP, env.parseCIDR route.Dst = .ok (ipAddr, dstIP)
  printed : env.print (finalResult env conf ipamResult r) = none
  trace : (cmdAdd env args).trace =
    (initLog env conf.LogFile).2 ++ events ++ (grpcConnect env conf.GrpcServer).2 ++
      [Event.remoteAdd (addRequest args conf k8Arg),
       Event.print (finalResult env conf ipamResult r), Event.connClose]

/-! ## Lemmas -/

theorem processIpAddresses_ok (env : Env) (seen : Nat) (ips : List CNIReply_Interface_IP) :
    ∀ (res out : Result), processIpAddresses env seen ips res = .ok out →
      out = { res with IPs := res.IPs ++ ips.map (builtIP env seen) } ∧
      ∀ ip ∈ ips, ∃ ipAddr ipNet, env.parseCIDR ip.Address = .ok (ipAddr, ipNet) := by
  induction ips with
  | nil =>
    intro res out h
    simp only [processIpAddresses, Except.ok.injEq] at h
    subst h
    simp
  | cons ip rest ih =>
    intro res out h
    simp only [processIpAddresses] at h
    split at h
    · cases h
    · rename_i ipAddr ipNet hp
      obtain ⟨hout, hall⟩ := ih _ _ h
      refine ⟨?_, ?_⟩
      · rw [hout]
        simp [builtIP, hp]
      · intro ip' hip'
        rcases List.mem_cons.mp hip' with rfl | hmem
        · exact ⟨ipAddr, ipNet, hp⟩
        · exact hall ip' hmem

theorem processInterfaces_ok (env : Env) (n : Nat) (ifaces : List CNIReply_Interface) :
    ∀ (ifidx : Nat) (res out : Result), processInterfaces env n ifidx ifaces res = .ok out →
      out = { res with
              Interfaces := res.Interfaces ++ ifaces.map builtInterface,
              IPs := res.IPs ++ translatedIPs env n ifidx ifaces } ∧
      ∀ iface ∈ ifaces, ∀ ip ∈ iface.IpAddresses,
        ∃ ipAddr ipNet, env.parseCIDR ip.Address = .ok (ipAddr, ipNet) := by
  induction ifaces with
  | nil =>
    intro ifidx res out h
    simp only [processInterfaces, Except.ok.injEq] at h
    subst h
    simp [translatedIPs]
  | cons iface rest ih =>
    intro ifidx res out h
    simp only [processInterfaces] at h
    split at h
    · cases h
    · rename_i mid hmid
      obtain ⟨hm, hallm⟩ := processIpAddresses_ok env _ _ _ _ hmid
      obtain ⟨hout, hall⟩ := ih _ _ _ h
      refine ⟨?_, ?_⟩
      · rw [hout, hm]
        simp [translatedIPs, builtInterface]
      · intro iface' hi
        rcases List.mem_cons.mp hi with rfl | hmem
        · exact hallm
        · exact hall iface' hmem

theorem processRoutes_ok (env : Env) (routes : List CNIReply_Route) :
    ∀ (res out : Result), processRoutes env routes res = .ok out →
      out = { res with Routes := res.Routes ++ routes.map (builtRoute env) } ∧
      ∀ route ∈ routes, ∃ ipAddr dstIP, env.parseCIDR route.Dst = .ok (ipAddr, dstIP) := by
  induction routes with
  | nil =>
    intro res out h
    simp only [processRoutes, Except.ok.injEq] at h
    subst h
    simp
  | cons route rest ih =>
    intro res out h
    simp only [processRoutes] at h
    split at h
    · cases h
    · rename_i ipAddr dstIP hp
      obtain ⟨hout, hall⟩ := ih _ _ h
      refine ⟨?_, ?_⟩
      · rw [hout]
        simp [builtRoute, hp]
      · intro route' hr
        rcases List.mem_cons.mp hr with rfl | hmem
        · exact ⟨ipAddr, dstIP, hp⟩
        · exact hall route' hmem

theorem processDns_eq (dnss : List CNIReply_DNS) :
    ∀ res : Result, processDns dnss res = { res with DNS := lastDns res.DNS dnss } := by
  induction dnss with
  | nil => intro res; simp [processDns, lastDns]
  | cons dns rest ih => intro res; simp [processDns, lastDns, ih]

theorem addRemote_ret_none (env : Env) (conf : nimbessConfig) (req : CNIRequest)
    (ipamResult : Result) (trace : List Event)
    (h : (addRemote env conf req { CNIVersion := conf.CNIVersion } ipamResult trace).ret = none) :
    ∃ r, (grpcConnect env conf.GrpcServer).1 = none ∧ env.remoteAdd req = .ok r ∧
      (∀ iface ∈ r.Interfaces, ∀ ip ∈ iface.IpAddresses,
        ∃ ipAddr ipNet, env.parseCIDR ip.Address = .ok (ipAddr, ipNet)) ∧
      (∀ route ∈ r.Routes, ∃ ipAddr dstIP, env.parseCIDR route.Dst = .ok (ipAddr, dstIP)) ∧
      env.print (finalResult env conf ipamResult r) = none ∧
      addRemote env conf req { CNIVersion := conf.CNIVersion } ipamResult trace =
        ⟨none, none, true, trace ++ (grpcConnect env conf.GrpcServer).2 ++
          [Event.remoteAdd req, Event.print (finalResult env conf ipamResult r)]⟩ := by
  unfold addRemote at h ⊢
  rcases hg : grpcConnect env conf.GrpcServer with ⟨_ | e, dialled⟩
  · rw [hg] at h
    simp only at h ⊢
    cases hr : env.remoteAdd req with
    | error e => rw [hr] at h; simp at h
    | ok r =>
      rw [hr] at h
      simp only at h ⊢
      cases hi : processInterfaces env r.Interfaces.length 0 r.Interfaces
          { CNIVersion := conf.CNIVersion,
            IPs := ipamResult.IPs.map (fun ipc => { ipc with Interface := some 0 }),
            Routes := ipamResult.Routes, DNS := ipamResult.DNS } with
      | error e => rw [hi] at h; simp at h
      | ok res1 =>
        rw [hi] at h
        simp only at h ⊢
        obtain ⟨h1, ha⟩ := processInterfaces_ok env _ _ _ _ _ hi
        cases hro : processRoutes env r.Routes res1 with
        | error e => rw [hro] at h; simp at h
        | ok res2 =>
          rw [hro] at h
          simp only at h ⊢
          obtain ⟨h2, hb⟩ := processRoutes_ok env _ _ _ hro
          have hfin : processDns r.Dns res2 = finalResult env conf ipamResult r := by
            rw [processDns_eq, h2, h1]
            simp [finalResult]
          rw [hfin] at h ⊢
          exact ⟨r, by simp, by simp, ha, hb, h, by simp [h]⟩
  · rw [hg] at h
    simp at h

theorem addRequest_ipamType (args : CmdArgs) (conf : nimbessConfig) (k8Arg : k8sArgs) :
    (addRequest args conf k8Arg).IpamType = conf.IPAM.Type_ := rfl

theorem addDeferred_ret (cniRequest : CNIRequest) (args : CmdArgs) (f : Frame) :
    (addDeferred cniRequest args f).ret = f.ret := by
  unfold addDeferred
  by_cases h : f.err.isSome <;> simp [h]

theorem cmdAdd_ret_none (env : Env) (args : CmdArgs) (h : (cmdAdd env args).ret = none) :
    ∃ conf k8Arg ipamResult r events, Succeeded env args conf k8Arg ipamResult r events := by
  unfold cmdAdd at h
  cases hp : parseCNIConfig env.unmarshal args.StdinData with
  | error e => rw [hp] at h; simp at h
  | ok conf =>
    rw [hp] at h
    simp only at h
    rcases hl : initLog env conf.LogFile with ⟨_ | e, opened⟩
    · rw [hl] at h
      simp only at h
      cases hk : env.loadArgs args.Args with
      | error e => rw [hk] at h; simp at h
      | ok k8Arg =>
        rw [hk] at h
        simp only at h
        rw [addDeferred_ret] at h
        have key : ∀ ipamResult events,
            allocation env args conf ipamResult events →
            (addRemote env conf (addRequest args conf k8Arg) { CNIVersion := conf.CNIVersion }
              ipamResult (opened ++ events)).ret = none →
            addWorkflow env args conf (addRequest args conf k8Arg)
              { CNIVersion := conf.CNIVersion } opened =
              addRemote env conf (addRequest args conf k8Arg) { CNIVersion := conf.CNIVersion }
                ipamResult (opened ++ events) →
            ∃ r, Succeeded env args conf k8Arg ipamResult r events := by
          intro ipamResult events hal hnone hw
          obtain ⟨r, hc, hr, ha, hb, hpr, heq⟩ := addRemote_ret_none env conf _ _ _ hnone
          refine ⟨r, hp, by rw [hl], hk, hal, hc, hr, ha, hb, hpr, ?_⟩
          unfold cmdAdd
          rw [hp]
          simp only
          rw [hl]
          simp only
          rw [hk]
          simp only
          rw [hw, heq]
          simp [addDeferred]
        unfold addWorkflow at h
        rw [addRequest_ipamType] at h
        by_cases hm : conf.IPAM.Type_ = "nimbess"
        · have hw : addWorkflow env args conf (addRequest args conf k8Arg)
              { CNIVersion := conf.CNIVersion } opened =
              addRemote env conf (addRequest args conf k8Arg) { CNIVersion := conf.CNIVersion }
                {} (opened ++ []) := by
            unfold addWorkflow
            rw [addRequest_ipamType]
            simp [hm]
          simp only [hm, ne_eq, not_true_eq_false, if_false] at h
          obtain ⟨r, hs⟩ := key {} [] (Or.inl ⟨hm, rfl, rfl⟩) (by simpa using h) hw
          exact ⟨conf, k8Arg, {}, r, [], hs⟩
        · simp only [ne_eq, hm, not_false_eq_true, if_true] at h
          cases he : env.execAdd conf.IPAM.Type_ args.StdinData with
          | error e => rw [he] at h; simp at h
          | ok ipamRequest =>
            rw [he] at h
            simp only at h
            cases hn : env.newResultFromResult ipamRequest with
            | error e => rw [hn] at h; simp at h
            | ok ipamResult =>
              rw [hn] at h
              simp only at h
              by_cases hz : ipamResult.IPs.length = 0
              · simp [hz] at h
              · simp only [hz, if_false] at h
                have hw : addWorkflow env args conf (addRequest args conf k8Arg)
                    { CNIVersion := conf.CNIVersion } opened =
                    addRemote env conf (addRequest args conf k8Arg)
                      { CNIVersion := conf.CNIVersion } ipamResult
                      (opened ++ [Event.execAdd conf.IPAM.Type_ args.StdinData]) := by
                  unfold addWorkflow
                  rw [addRequest_ipamType]
                  simp [hm, he, hn, hz]
                have hne : ipamResult.IPs ≠ [] := by
                  intro hnil; exact hz (by rw [hnil]; rfl)
                obtain ⟨r, hs⟩ := key ipamResult _
                  (Or.inr ⟨hm, hne, rfl, ipamRequest, he, hn⟩) h hw
                exact ⟨conf, k8Arg, ipamResult, r, _, hs⟩
    · rw [hl] at h
      simp at h

theorem mem_initLog (env : Env) (fileName : String) (ev : Event)
    (h : ev ∈ (initLog env fileName).2) : ∃ f, ev = Event.openLog f := by
  simp only [initLog, List.mem_singleton] at h
  exact ⟨_, h⟩

theorem mem_grpcConnect (env : Env) (grpcServer : String) (ev : Event)
    (h : ev ∈ (grpcConnect env grpcServer).2) :
    (∃ s, ev = Event.dialUnix s) ∨ (∃ s, ev = Event.dialTCP s) := by
  unfold grpcConnect at h
  split at h
  · simp only [List.mem_singleton] at h
    exact Or.inl ⟨_, h⟩
  · simp only [List.mem_singleton] at h
    exact Or.inr ⟨_, h⟩

theorem mem_allocation (env : Env) (args : CmdArgs) (conf : nimbessConfig)
    (ipamResult : Result) (events : List Event)
    (hal : allocation env args conf ipamResult events) (ev : Event) (h : ev ∈ events) :
    ev = Event.execAdd conf.IPAM.Type_ args.StdinData := by
  rcases hal with ⟨_, _, he⟩ | ⟨_, _, he, _⟩
  · rw [he] at h; cases h
  · rw [he] at h
    simpa using h

/-- In a successful run the only request sent is the one `cmdAdd` builds and
the only result printed is `finalResult`. -/
theorem Succeeded.unique {env : Env} {args : CmdArgs} {conf : nimbessConfig} {k8Arg : k8sArgs}
    {ipamResult : Result} {r : CNIReply} {events : List Event}
    (hs : Succeeded env args conf k8Arg ipamResult r events) :
    (∀ req, Event.remoteAdd req ∈ (cmdAdd env args).trace → req = addRequest args conf k8Arg) ∧
    (∀ res, Event.print res ∈ (cmdAdd env args).trace →
      res = finalResult env conf ipamResult r) := by
  rw [hs.trace]
  constructor
  · intro req h
    simp only [List.mem_append, List.mem_cons, List.mem_singleton, List.not_mem_nil,
      or_false] at h
    rcases h with ((h | h) | h) | h
    · obtain ⟨f, hf⟩ := mem_initLog _ _ _ h
      cases hf
    · have := mem_allocation _ _ _ _ _ hs.allocated _ h
      cases this
    · rcases mem_grpcConnect _ _ _ h with ⟨s, hs⟩ | ⟨s, hs⟩ <;> cases hs
    · rcases h with h | h | h
      · cases h; rfl
      · cases h
      · cases h
  · intro res h
    simp only [List.mem_append, List.mem_cons, List.mem_singleton, List.not_mem_nil,
      or_false] at h
    rcases h with ((h | h) | h) | h
    · obtain ⟨f, hf⟩ := mem_initLog _ _ _ h
      cases hf
    · have := mem_allocation _ _ _ _ _ hs.allocated _ h
      cases this
    · rcases mem_grpcConnect _ _ _ h with ⟨s, hs⟩ | ⟨s, hs⟩ <;> cases hs
    · rcases h with h | h | h
      · cases h
      · cases h; rfl
      · cases h

/-- The allocator call is in the trace of a successful run exactly when it
belongs to the run's allocation. -/
theorem Succeeded.execAdd_mem {env : Env} {args : CmdArgs} {conf : nimbessConfig}
    {k8Arg : k8sArgs} {ipamResult : Result} {r : CNIReply} {events : List Event}
    (hs : Succeeded env args conf k8Arg ipamResult r events) (t : String) (b : Bytes) :
    Event.execAdd t b ∈ (cmdAdd env args).trace ↔ Event.execAdd t b ∈ events := by
  rw [hs.trace]
  simp only [List.mem_append, List.mem_cons, List.mem_singleton, List.not_mem_nil,
    or_false]
  constructor
  · intro h
    rcases h with ((h | h) | h) | h
    · obtain ⟨f, hf⟩ := mem_initLog _ _ _ h
      cases hf
    · exact h
    · rcases mem_grpcConnect _ _ _ h with ⟨s, hs⟩ | ⟨s, hs⟩ <;> cases hs
    · rcases h with h | h | h <;> cases h
  · intro h
    exact Or.inl (Or.inl (Or.inr h))

theorem lastDns_getLast (dnss : List CNIReply_DNS) :
    ∀ (dflt : DNS) (dns : CNIReply_DNS), dnss.getLast? = some dns →
      lastDns dflt dnss = { Nameservers := dns.Nameservers, Domain := dns.Domain,
                            Search := dns.Search, Options := dns.Options } := by
  induction dnss with
  | nil => intro dflt dns h; cases h
  | cons d rest ih =>
    intro dflt dns h
    cases rest with
    | nil =>
      simp only [List.getLast?_singleton, Option.some.injEq] at h
      subst h
      rfl
    | cons d2 ds =>
      rw [List.getLast?_cons_cons] at h
      rw [lastDns]
      exact ih _ dns h

theorem builtIP_spec (env : Env) (seen : Nat) (ip : CNIReply_Interface_IP)
    (h : ∃ ipAddr ipNet, env.parseCIDR ip.Address = .ok (ipAddr, ipNet)) :
    ∃ ipAddr ipNet, env.parseCIDR ip.Address = .ok (ipAddr, ipNet) ∧
      (builtIP env seen ip).Address = { IP := ipAddr, Mask := ipNet.Mask } ∧
      (builtIP env seen ip).Version = (if ip.Version = IPVersion.IPV6 then "6" else "4") ∧
      (builtIP env seen ip).Gateway = (if ip.Gateway = "" then [] else env.parseIP ip.Gateway) ∧
      (builtIP env seen ip).Interface = some seen := by
  obtain ⟨ipAddr, ipNet, hp⟩ := h
  refine ⟨ipAddr, ipNet, hp, ?_, ?_, ?_, ?_⟩ <;> simp only [builtIP, hp]
  by_cases hg : ip.Gateway = "" <;> simp [hg]

theorem forall₂_append_of {α β : Type} {R : α → β → Prop} :
    ∀ {l₁ l₂ : List α} {m₁ m₂ : List β}, List.Forall₂ R l₁ m₁ → List.Forall₂ R l₂ m₂ →
      List.Forall₂ R (l₁ ++ l₂) (m₁ ++ m₂) := by
  intro l₁ l₂ m₁ m₂ h₁ h₂
  induction h₁ with
  | nil => exact h₂
  | cons hab _ ih => exact List.Forall₂.cons hab ih

theorem translatedIPs_forall₂ (env : Env) (n : Nat) (ifaces : List CNIReply_Interface) :
    ∀ ifidx : Nat,
      (∀ iface ∈ ifaces, ∀ ip ∈ iface.IpAddresses,
        ∃ ipAddr ipNet, env.parseCIDR ip.Address = .ok (ipAddr, ipNet)) →
      List.Forall₂
        (fun ip cfg => ∃ ipAddr ipNet, env.parseCIDR ip.Address = .ok (ipAddr, ipNet) ∧
          cfg.Address = { IP := ipAddr, Mask := ipNet.Mask } ∧
          cfg.Version = (if ip.Version = IPVersion.IPV6 then "6" else "4") ∧
          cfg.Gateway = (if ip.Gateway = "" then [] else env.parseIP ip.Gateway))
        (ifaces.flatMap (fun iface => iface.IpAddresses)) (translatedIPs env n ifidx ifaces) := by
  induction ifaces with
  | nil => intro _ _; exact List.Forall₂.nil
  | cons iface rest ih =>
    intro ifidx hall
    rw [List.flatMap_cons, translatedIPs]
    apply forall₂_append_of
    · rw [List.forall₂_map_right_iff, List.forall₂_same]
      intro ip hip
      obtain ⟨a, m, h1, h2, h3, h4, _⟩ :=
        builtIP_spec env (ifidxSeen env.loopVarPerIteration n ifidx) ip
          (hall iface (List.mem_cons_self _ _) ip hip)
      exact ⟨a, m, h1, h2, h3, h4⟩
    · exact ih _ (fun iface' hi => hall iface' (List.mem_cons_of_mem _ hi))

theorem translatedIPs_length (env : Env) (n : Nat) (ifaces : List CNIReply_Interface) :
    ∀ ifidx : Nat, (translatedIPs env n ifidx ifaces).length =
      (ifaces.map (fun iface => iface.IpAddresses.length)).sum := by
  induction ifaces with
  | nil => intro _; rfl
  | cons iface rest ih =>
    intro ifidx
    simp [translatedIPs, ih]

theorem translatedIPs_index (env : Env) (n : Nat) (ifaces : List CNIReply_Interface) :
    ∀ ifidx : Nat,
      (∀ iface ∈ ifaces, ∀ ip ∈ iface.IpAddresses,
        ∃ ipAddr ipNet, env.parseCIDR ip.Address = .ok (ipAddr, ipNet)) →
      ∀ cfg ∈ translatedIPs env n ifidx ifaces,
        ∃ j, ifidx ≤ j ∧ j < ifidx + ifaces.length ∧
          cfg.Interface = some (ifidxSeen env.loopVarPerIteration n j) := by
  induction ifaces with
  | nil => intro _ _ cfg h; cases h
  | cons iface rest ih =>
    intro ifidx hall cfg h
    rw [translatedIPs, List.mem_append] at h
    rcases h with h | h
    · obtain ⟨ip, hip, rfl⟩ := List.mem_map.mp h
      obtain ⟨_, _, _, _, _, _, h5⟩ :=
        builtIP_spec env (ifidxSeen env.loopVarPerIteration n ifidx) ip
          (hall iface (List.mem_cons_self _ _) ip hip)
      exact ⟨ifidx, le_refl _, by simp, h5⟩
    · obtain ⟨j, h1, h2, h3⟩ :=
        ih (ifidx + 1) (fun iface' hi => hall iface' (List.mem_cons_of_mem _ hi)) cfg h
      refine ⟨j, by omega, ?_, h3⟩
      simp only [List.length_cons]
      omega

theorem addRemote_trace_forall (P : Event → Prop) (env : Env) (conf : nimbessConfig)
    (req : CNIRequest) (cniResult ipamResult : Result) (trace : List Event)
    (htrace : ∀ ev ∈ trace, P ev) (hunix : ∀ s, P (Event.dialUnix s))
    (htcp : ∀ s, P (Event.dialTCP s)) (hreq : P (Event.remoteAdd req))
    (hprint : ∀ res, P (Event.print res)) :
    ∀ ev ∈ (addRemote env conf req cniResult ipamResult trace).trace, P ev := by
  have hdial : ∀ ev ∈ (grpcConnect env conf.GrpcServer).2, P ev := by
    intro ev hev
    rcases mem_grpcConnect _ _ _ hev with ⟨s, rfl⟩ | ⟨s, rfl⟩
    · exact hunix s
    · exact htcp s
  unfold addRemote
  rcases hg : grpcConnect env conf.GrpcServer with ⟨_ | e, dialled⟩
  · rw [hg] at hdial
    simp only
    have hpre : ∀ ev ∈ trace ++ dialled ++ [Event.remoteAdd req], P ev := by
      intro ev hev
      simp only [List.mem_append, List.mem_singleton] at hev
      rcases hev with (hev | hev) | hev
      · exact htrace ev hev
      · exact hdial ev hev
      · rw [hev]; exact hreq
    cases env.remoteAdd req with
    | error e => exact hpre
    | ok r =>
      simp only
      cases processInterfaces env r.Interfaces.length 0 r.Interfaces _ with
      | error e => exact hpre
      | ok res1 =>
        simp only
        cases processRoutes env r.Routes res1 with
        | error e => exact hpre
        | ok res2 =>
          simp only
          intro ev hev
          rcases List.mem_append.mp hev with hev | hev
          · exact hpre ev hev
          · rw [List.mem_singleton.mp hev]; exact hprint _
  · rw [hg] at hdial
    simp only
    intro ev hev
    rcases List.mem_append.mp hev with hev | hev
    · exact htrace ev hev
    · exact hdial ev hev

theorem addRemote_trace_mono (env : Env) (conf : nimbessConfig) (req : CNIRequest)
    (cniResult ipamResult : Result) (trace : List Event) :
    ∀ ev ∈ trace, ev ∈ (addRemote env conf req cniResult ipamResult trace).trace := by
  intro ev hev
  unfold addRemote
  rcases grpcConnect env conf.GrpcServer with ⟨_ | e, dialled⟩
  · simp only
    cases env.remoteAdd req with
    | error e => simp [hev]
    | ok r =>
      simp only
      cases processInterfaces env r.Interfaces.length 0 r.Interfaces _ with
      | error e => simp [hev]
      | ok res1 =>
        simp only
        cases processRoutes env r.Routes res1 with
        | error e => simp [hev]
        | ok res2 => simp [hev]
  · simp [hev]

theorem addWorkflow_trace_forall (P : Event → Prop) (env : Env) (args : CmdArgs)
    (conf : nimbessConfig) (req : CNIRequest) (cniResult : Result) (trace : List Event)
    (htrace : ∀ ev ∈ trace, P ev)
    (hadd : req.IpamType ≠ "nimbess" → P (Event.execAdd req.IpamType args.StdinData))
    (hunix : ∀ s, P (Event.dialUnix s)) (htcp : ∀ s, P (Event.dialTCP s))
    (hreq : P (Event.remoteAdd req)) (hprint : ∀ res, P (Event.print res)) :
    ∀ ev ∈ (addWorkflow env args conf req cniResult trace).trace, P ev := by
  unfold addWorkflow
  by_cases hm : req.IpamType = "nimbess"
  · simp only [hm, ne_eq, not_true_eq_false, if_false]
    exact addRemote_trace_forall P env conf req cniResult {} trace htrace hunix htcp hreq hprint
  · simp only [ne_eq, hm, not_false_eq_true, if_true]
    have hpre : ∀ ev ∈ trace ++ [Event.execAdd req.IpamType args.StdinData], P ev := by
      intro ev hev
      rcases List.mem_append.mp hev with hev | hev
      · exact htrace ev hev
      · rw [List.mem_singleton.mp hev]; exact hadd hm
    cases env.execAdd req.IpamType args.StdinData with
    | error e => exact hpre
    | ok ipamRequest =>
      simp only
      cases env.newResultFromResult ipamRequest with
      | error e => exact hpre
      | ok ipamResult =>
        simp only
        by_cases hz : ipamResult.IPs.length = 0
        · simp only [hz, if_true]
          exact hpre
        · simp only [hz, if_false]
          exact addRemote_trace_forall P env conf req cniResult ipamResult _ hpre hunix htcp
            hreq hprint

theorem addWorkflow_execAdd_mem (env : Env) (args : CmdArgs) (conf : nimbessConfig)
    (req : CNIRequest) (cniResult : Result) (trace : List Event)
    (hm : req.IpamType ≠ "nimbess") :
    Event.execAdd req.IpamType args.StdinData ∈
      (addWorkflow env args conf req cniResult trace).trace := by
  unfold addWorkflow
  simp only [ne_eq, hm, not_false_eq_true, if_true]
  have hpre : Event.execAdd req.IpamType args.StdinData ∈
      trace ++ [Event.execAdd req.IpamType args.StdinData] := by simp
  cases env.execAdd req.IpamType args.StdinData with
  | error e => exact hpre
  | ok ipamRequest =>
    simp only
    cases env.newResultFromResult ipamRequest with
    | error e => exact hpre
    | ok ipamResult =>
      simp only
      by_cases hz : ipamResult.IPs.length = 0
      · simp only [hz, if_true]
        exact hpre
      · simp only [hz, if_false]
        exact addRemote_trace_mono env conf req cniResult ipamResult _ _ hpre

theorem addDeferred_trace_forall (P : Event → Prop) (req : CNIRequest) (args : CmdArgs)
    (f : Frame) (htrace : ∀ ev ∈ f.trace, P ev) (hclose : P Event.connClose)
    (hdel : P (Event.execDel req.IpamType args.StdinData)) :
    ∀ ev ∈ (addDeferred req args f).trace, P ev := by
  intro ev hev
  unfold addDeferred at hev
  by_cases hc : f.conn <;> by_cases he : f.err.isSome <;>
    simp only [hc, he, if_true, if_false, List.mem_append, List.mem_singleton,
      Bool.false_eq_true] at hev
  · rcases hev with (hev | hev) | hev
    · exact htrace ev hev
    · rw [hev]; exact hclose
    · rw [hev]; exact hdel
  · rcases hev with hev | hev
    · exact htrace ev hev
    · rw [hev]; exact hclose
  · rcases hev with hev | hev
    · exact htrace ev hev
    · rw [hev]; exact hdel
  · exact htrace ev hev

theorem addDeferred_trace_mono (req : CNIRequest) (args : CmdArgs) (f : Frame) :
    ∀ ev ∈ f.trace, ev ∈ (addDeferred req args f).trace := by
  intro ev hev
  unfold addDeferred
  by_cases hc : f.conn <;> by_cases he : f.err.isSome <;> simp [hc, he, hev]

/-- Every event of a run of `cmdAdd` whose configuration parses to `conf`
satisfies `P`, when `P` holds of the events that `cmdAdd` can emit with the
mode identifier `conf.IPAM.Type_`. -/
theorem cmdAdd_trace_forall (P : Event → Prop) (env : Env) (args : CmdArgs)
    (conf : nimbessConfig)
    (hconf : parseCNIConfig env.unmarshal args.StdinData = .ok conf)
    (hlog : ∀ f, P (Event.openLog f))
    (hadd : conf.IPAM.Type_ ≠ "nimbess" → P (Event.execAdd conf.IPAM.Type_ args.StdinData))
    (hdel : P (Event.execDel conf.IPAM.Type_ args.StdinData))
    (hunix : ∀ s, P (Event.dialUnix s)) (htcp : ∀ s, P (Event.dialTCP s))
    (hclose : P Event.connClose)
    (hreq : ∀ k8Arg, P (Event.remoteAdd (addRequest args conf k8Arg)))
    (hprint : ∀ res, P (Event.print res)) :
    ∀ ev ∈ (cmdAdd env args).trace, P ev := by
  have hopen : ∀ ev ∈ (initLog env conf.LogFile).2, P ev := by
    intro ev hev
    obtain ⟨f, rfl⟩ := mem_initLog _ _ _ hev
    exact hlog f
  unfold cmdAdd
  rw [hconf]
  simp only
  rcases hl : initLog env conf.LogFile with ⟨_ | e, opened⟩
  · rw [hl] at hopen
    simp only
    cases env.loadArgs args.Args with
    | error e => exact hopen
    | ok k8Arg =>
      simp only
      apply addDeferred_trace_forall P _ _ _ _ hclose hdel
      exact addWorkflow_trace_forall P env args conf _ _ _ hopen hadd hunix htcp (hreq k8Arg)
        hprint
  · rw [hl] at hopen
    exact hopen

/-! ## The claims -/

/-- C1: `parseCNIConfig` returns a configuration exactly when the buffer
decodes, the decoded `prevResult` is nil and the decoded `grpcServer` is not
empty, and the configuration returned is the decoded one; in every other case
it returns an error.  In particular a decoded document with an empty
`grpcServer` and one with a non-nil `prevResult` are rejected. -/
theorem parseCNIConfig_ok_iff (unmarshal : Bytes → Except Error nimbessConfig) (bytes : Bytes) :
    (∀ conf, parseCNIConfig unmarshal bytes = .ok conf ↔
      (unmarshal bytes = .ok conf ∧ conf.PrevResult = none ∧ conf.GrpcServer ≠ "")) ∧
    ((¬ ∃ conf, unmarshal bytes = .ok conf ∧ conf.PrevResult = none ∧ conf.GrpcServer ≠ "") →
      ∃ err, parseCNIConfig unmarshal bytes = .error err) ∧
    (∀ conf, unmarshal bytes = .ok conf → conf.GrpcServer = "" →
      ∃ err, parseCNIConfig unmarshal bytes = .error err) ∧
    (∀ conf, unmarshal bytes = .ok conf → conf.PrevResult ≠ none →
      ∃ err, parseCNIConfig unmarshal bytes = .error err) := by
  unfold parseCNIConfig
  cases hu : unmarshal bytes with
  | error e => simp
  | ok c =>
    cases hprev : c.PrevResult with
    | some m =>
      simp only [hprev, Option.isSome_some, if_true]
      refine ⟨?_, ?_, ?_, ?_⟩
      · intro conf
        constructor
        · intro h; cases h
        · rintro ⟨h1, h2, _⟩
          cases h1
          rw [hprev] at h2
          cases h2
      · intro _; exact ⟨_, rfl⟩
      · intro _ _ _; exact ⟨_, rfl⟩
      · intro _ _ _; exact ⟨_, rfl⟩
    | none =>
      by_cases hg : c.GrpcServer = ""
      · simp only [hprev, Option.isSome_none, Bool.false_eq_true, if_false, hg, if_true]
        refine ⟨?_, ?_, ?_, ?_⟩
        · intro conf
          constructor
          · intro h; cases h
          · rintro ⟨h1, _, h3⟩
            cases h1
            exact absurd hg h3
        · intro _; exact ⟨_, rfl⟩
        · intro _ _ _; exact ⟨_, rfl⟩
        · intro _ _ _; exact ⟨_, rfl⟩
      · simp only [hprev, Option.isSome_none, Bool.false_eq_true, if_false, hg]
        refine ⟨?_, ?_, ?_, ?_⟩
        · intro conf
          constructor
          · intro h
            cases h
            exact ⟨rfl, hprev, hg⟩
          · rintro ⟨h1, _, _⟩
            cases h1
            rfl
        · intro hno
          exact absurd ⟨c, rfl, hprev, hg⟩ hno
        · intro conf h1 h2
          cases h1
          exact absurd h2 hg
        · intro conf h1 h2
          cases h1
          exact absurd hprev h2

/-- C1 at the documents `docSelf` (accepted), `docNoServer` and `docChained`
(both rejected). -/
theorem parseCNIConfig_ok_iff_witness :
    parseCNIConfig unmarshalTable docSelf = .ok confSelf ∧
    (∃ err, parseCNIConfig unmarshalTable docNoServer = .error err) ∧
    (∃ err, parseCNIConfig unmarshalTable docChained = .error err) :=
  ⟨((parseCNIConfig_ok_iff unmarshalTable docSelf).1 confSelf).2 ⟨rfl, rfl, by decide⟩,
   (parseCNIConfig_ok_iff unmarshalTable docNoServer).2.2.1
     { CNIVersion := "0.3.1", IPAM := { Type_ := "nimbess" } } rfl rfl,
   (parseCNIConfig_ok_iff unmarshalTable docChained).2.2.2
     { CNIVersion := "0.3.1", GrpcServer := "localhost:9111", PrevResult := some [] } rfl
     (by simp)⟩

/-- C2: after `host-local` has allocated, `cmdAdd` fails without any release
call (a) when the allocator's result has no IP configuration and (b) when it
allocated `10.0.0.7/24` and the reply then has a malformed route destination:
in both runs the trace holds an `execAdd` and no `execDel`. -/
theorem cmdAdd_failure_after_allocation_not_released :
    cmdAdd (world {} replyOneAddress) (argsFor docHostLocal) =
      ⟨some "IPAM plugin returned missing IP config",
       [Event.openLog defaultLogFile, Event.execAdd "host-local" docHostLocal]⟩ ∧
    cmdAdd (world { IPs := [allocatedIP] } replyBadRouteDst) (argsFor docHostLocal) =
      ⟨some "invalid CIDR address: not-a-cidr",
       [Event.openLog defaultLogFile, Event.execAdd "host-local" docHostLocal,
        Event.dialTCP "localhost:9111",
        Event.remoteAdd (addRequest (argsFor docHostLocal) confHostLocal {}),
        Event.connClose]⟩ ∧
    released (cmdAdd (world {} replyOneAddress) (argsFor docHostLocal)).trace = [] ∧
    released (cmdAdd (world { IPs := [allocatedIP] } replyBadRouteDst)
      (argsFor docHostLocal)).trace = [] := by
  refine ⟨by decide, by decide, by decide, by decide⟩

/-- C3: with `10.0.0.7/24` allocated by `host-local` and a reply whose address
text is `not-an-ip`, `cmdAdd` returns the parse error and makes no release
call. -/
theorem cmdAdd_bad_address_not_released :
    cmdAdd (world { IPs := [allocatedIP] } replyBadAddress) (argsFor docHostLocal) =
      ⟨some "invalid CIDR address: not-an-ip",
       [Event.openLog defaultLogFile, Event.execAdd "host-local" docHostLocal,
        Event.dialTCP "localhost:9111",
        Event.remoteAdd (addRequest (argsFor docHostLocal) confHostLocal {}),
        Event.connClose]⟩ ∧
    released (cmdAdd (world { IPs := [allocatedIP] } replyBadAddress)
      (argsFor docHostLocal)).trace = [] := by
  refine ⟨by decide, by decide⟩

/-- C4: when the configuration parses with an allocation mode other than
`nimbess` and the allocator fails, or succeeds with a result whose conversion
fails or has no IP configuration, `cmdAdd` returns an error and its trace has
no dial and no remote call. -/
theorem cmdAdd_allocation_failure_no_remote (env : Env) (args : CmdArgs) (conf : nimbessConfig)
    (hconf : parseCNIConfig env.unmarshal args.StdinData = .ok conf)
    (hmode : conf.IPAM.Type_ ≠ "nimbess")
    (halloc : (∃ err, env.execAdd conf.IPAM.Type_ args.StdinData = .error err) ∨
      (∃ ipamRequest, env.execAdd conf.IPAM.Type_ args.StdinData = .ok ipamRequest ∧
        ∀ ipamResult, env.newResultFromResult ipamRequest = .ok ipamResult →
          ipamResult.IPs = [])) :
    (∃ err, (cmdAdd env args).ret = some err) ∧
    ∀ ev ∈ (cmdAdd env args).trace, ev.isRemote = false := by
  unfold cmdAdd
  rw [hconf]
  simp only
  rcases hl : initLog env conf.LogFile with ⟨_ | e, opened⟩
  · have hopened : ∀ ev ∈ opened, ev.isRemote = false := by
      intro ev hev
      have h2 : ev ∈ (initLog env conf.LogFile).2 := by rw [hl]; exact hev
      obtain ⟨f, rfl⟩ := mem_initLog _ _ _ h2
      rfl
    simp only
    cases hk : env.loadArgs args.Args with
    | error e => exact ⟨⟨e, rfl⟩, hopened⟩
    | ok k8Arg =>
      simp only
      unfold addWorkflow
      rw [addRequest_ipamType]
      simp only [ne_eq, hmode, not_false_eq_true, if_true]
      rcases halloc with ⟨e, he⟩ | ⟨ipamRequest, he, hzero⟩
      · rw [he]
        refine ⟨⟨e, by simp [addDeferred]⟩, ?_⟩
        intro ev hev
        simp only [addDeferred, Option.isSome_some, if_true, List.mem_append,
          List.mem_singleton, Bool.false_eq_true, if_false] at hev
        rcases hev with (hev | hev) | hev
        · exact hopened ev hev
        · rw [hev]; rfl
        · rw [hev]; rfl
      · rw [he]
        simp only
        cases hn : env.newResultFromResult ipamRequest with
        | error e =>
          refine ⟨⟨e, by simp [addDeferred]⟩, ?_⟩
          intro ev hev
          simp only [addDeferred, Option.isSome_some, if_true, List.mem_append,
            List.mem_singleton, Bool.false_eq_true, if_false] at hev
          rcases hev with (hev | hev) | hev
          · exact hopened ev hev
          · rw [hev]; rfl
          · rw [hev]; rfl
        | ok ipamResult =>
          have hz : ipamResult.IPs.length = 0 := by rw [hzero ipamResult hn]; rfl
          simp only [hz, if_true]
          refine ⟨⟨"IPAM plugin returned missing IP config", by simp [addDeferred]⟩, ?_⟩
          intro ev hev
          simp only [addDeferred, Option.isSome_none, Bool.false_eq_true, if_false,
            List.mem_append, List.mem_singleton] at hev
          rcases hev with hev | hev
          · exact hopened ev hev
          · rw [hev]; rfl
  · simp only
    refine ⟨⟨e, rfl⟩, ?_⟩
    intro ev hev
    have h2 : ev ∈ (initLog env conf.LogFile).2 := by rw [hl]; exact hev
    obtain ⟨f, rfl⟩ := mem_initLog _ _ _ h2
    rfl

/-- C4 where `host-local` returns a result without IP configurations. -/
theorem cmdAdd_allocation_failure_no_remote_witness :
    parseCNIConfig (world {} replyOneAddress).unmarshal (argsFor docHostLocal).StdinData =
      .ok confHostLocal ∧
    confHostLocal.IPAM.Type_ ≠ "nimbess" ∧
    (∃ err, (cmdAdd (world {} replyOneAddress) (argsFor docHostLocal)).ret = some err) ∧
    ∀ ev ∈ (cmdAdd (world {} replyOneAddress) (argsFor docHostLocal)).trace,
      ev.isRemote = false :=
  ⟨rfl, by decide,
   cmdAdd_allocation_failure_no_remote (world {} replyOneAddress) (argsFor docHostLocal)
     confHostLocal rfl (by decide)
     (Or.inr ⟨({} : Result), rfl, fun ipamResult h => by cases h; rfl⟩)⟩

/-- C5, counterexample: in self-allocation mode a reply with two interfaces,
each carrying one address, is accepted, and the printed IP configurations
carry the interface indices 1 and 1 when the loop variable is shared, 0 and 1
when there is one per iteration; in both cases one of them is not 0. -/
theorem cmdAdd_second_interface_index_not_zero :
    (cmdAdd (world {} replyTwoInterfaces) (argsFor docSelf)).ret = none ∧
    (printed (cmdAdd (world {} replyTwoInterfaces) (argsFor docSelf)).trace).map
      (fun res => res.IPs.map (fun cfg => cfg.Interface)) = [[some 1, some 1]] ∧
    (cmdAdd (worldPerIteration {} replyTwoInterfaces) (argsFor docSelf)).ret = none ∧
    (printed (cmdAdd (worldPerIteration {} replyTwoInterfaces) (argsFor docSelf)).trace).map
      (fun res => res.IPs.map (fun cfg => cfg.Interface)) = [[some 0, some 1]] := by
  refine ⟨by decide, by decide, by decide, by decide⟩

/-- C5, amended: in a successful add the printed IP list is the allocator's
entries followed by one entry per address of the reply; every allocator entry
carries interface index 0, every reply entry carries an index below the number
of reply interfaces, and that index is 0 when the reply has at most one
interface. -/
theorem cmdAdd_interface_index (env : Env) (args : CmdArgs) (req : CNIRequest)
    (r : CNIReply) (res : Result)
    (hok : (cmdAdd env args).ret = none)
    (hreq : Event.remoteAdd req ∈ (cmdAdd env args).trace)
    (hr : env.remoteAdd req = .ok r)
    (hres : Event.print res ∈ (cmdAdd env args).trace) :
    ∃ allocated translated, res.IPs = allocated ++ translated ∧
      translated.length = (r.Interfaces.map (fun iface => iface.IpAddresses.length)).sum ∧
      (∀ cfg ∈ allocated, cfg.Interface = some 0) ∧
      (∀ cfg ∈ translated, ∃ j, j < r.Interfaces.length ∧ cfg.Interface = some j) ∧
      (r.Interfaces.length ≤ 1 → ∀ cfg ∈ translated, cfg.Interface = some 0) := by
  obtain ⟨conf, k8Arg, ipamResult, r', events, hs⟩ := cmdAdd_ret_none env args hok
  have hreq' := hs.unique.1 req hreq
  have hres' := hs.unique.2 res hres
  subst hreq'
  have hrr : r' = r := by
    have := hs.replied
    rw [hr] at this
    cases this
    rfl
  subst hrr
  subst hres'
  have hidx := translatedIPs_index env r'.Interfaces.length r'.Interfaces 0 hs.addresses
  refine ⟨ipamResult.IPs.map (fun ipc : IPConfig => { ipc with Interface := some 0 }),
    translatedIPs env r'.Interfaces.length 0 r'.Interfaces, rfl,
    translatedIPs_length env _ _ 0, ?_, ?_, ?_⟩
  · intro cfg hcfg
    obtain ⟨ipc, _, rfl⟩ := List.mem_map.mp hcfg
    rfl
  · intro cfg hcfg
    obtain ⟨j, _, hj, hseen⟩ := hidx cfg hcfg
    refine ⟨ifidxSeen env.loopVarPerIteration r'.Interfaces.length j, ?_, hseen⟩
    unfold ifidxSeen
    split <;> omega
  · intro hle cfg hcfg
    obtain ⟨j, _, hj, hseen⟩ := hidx cfg hcfg
    rw [hseen]
    unfold ifidxSeen
    split
    · congr 1; omega
    · congr 1; omega

/-- C5, amended, where `host-local` allocated `10.0.0.7/24` and the reply has
one interface with one address. -/
theorem cmdAdd_interface_index_witness :
    (cmdAdd (world { IPs := [allocatedIP] } replyOneAddress) (argsFor docHostLocal)).ret = none ∧
    Event.remoteAdd requestHostLocal ∈
      (cmdAdd (world { IPs := [allocatedIP] } replyOneAddress) (argsFor docHostLocal)).trace ∧
    Event.print resultAllocated ∈
      (cmdAdd (world { IPs := [allocatedIP] } replyOneAddress) (argsFor docHostLocal)).trace ∧
    ∃ allocated translated, resultAllocated.IPs = allocated ++ translated ∧
      translated.length =
        (replyOneAddress.Interfaces.map (fun iface => iface.IpAddresses.length)).sum ∧
      (∀ cfg ∈ allocated, cfg.Interface = some 0) ∧
      (∀ cfg ∈ translated, ∃ j, j < replyOneAddress.Interfaces.length ∧
        cfg.Interface = some j) ∧
      (replyOneAddress.Interfaces.length ≤ 1 → ∀ cfg ∈ translated, cfg.Interface = some 0) :=
  ⟨by decide, by decide, by decide,
   cmdAdd_interface_index (world { IPs := [allocatedIP] } replyOneAddress)
     (argsFor docHostLocal) requestHostLocal replyOneAddress resultAllocated
     (by decide) (by decide) rfl (by decide)⟩

/-- C6: in a successful add the printed IP list ends with one entry per address
of the reply, in order; the entry has the host address and the mask that
`net.ParseCIDR` gives for the address text, version `6` when the reply tags the
address `IPV6` and `4` otherwise, and as gateway the value of `net.ParseIP` on the
gateway text, nil when that text is empty.  In self-allocation mode the reply
with the one address `10.0.0.5/24`, gateway `10.0.0.1`, prints exactly one IP
configuration: address `10.0.0.5`, mask `/24` (network `10.0.0.0/24`),
version `4`, gateway `10.0.0.1`, interface index 0. -/
theorem cmdAdd_translated_address :
    (∀ (env : Env) (args : CmdArgs) (req : CNIRequest) (r : CNIReply) (res : Result),
      (cmdAdd env args).ret = none →
      Event.remoteAdd req ∈ (cmdAdd env args).trace →
      env.remoteAdd req = .ok r →
      Event.print res ∈ (cmdAdd env args).trace →
      ∃ allocated translated, res.IPs = allocated ++ translated ∧
        List.Forall₂
          (fun ip cfg => ∃ ipAddr ipNet, env.parseCIDR ip.Address = .ok (ipAddr, ipNet) ∧
            cfg.Address = { IP := ipAddr, Mask := ipNet.Mask } ∧
            cfg.Version = (if ip.Version = IPVersion.IPV6 then "6" else "4") ∧
            cfg.Gateway = (if ip.Gateway = "" then [] else env.parseIP ip.Gateway))
          (r.Interfaces.flatMap (fun iface => iface.IpAddresses)) translated) ∧
    (cmdAdd (world {} replyOneAddress) (argsFor docSelf)).ret = none ∧
    (printed (cmdAdd (world {} replyOneAddress) (argsFor docSelf)).trace).map
      (fun res => res.IPs) =
      [[{ Version := "4", Interface := some 0,
          Address := { IP := [10, 0, 0, 5], Mask := [255, 255, 255, 0] },
          Gateway := [10, 0, 0, 1] }]] ∧
    maskIP [10, 0, 0, 5] [255, 255, 255, 0] = [10, 0, 0, 0] := by
  refine ⟨?_, by decide, by decide, by decide⟩
  intro env args req r res hok hreq hr hres
  obtain ⟨conf, k8Arg, ipamResult, r', events, hs⟩ := cmdAdd_ret_none env args hok
  have hreq' := hs.unique.1 req hreq
  have hres' := hs.unique.2 res hres
  subst hreq'
  have hrr : r' = r := by
    have := hs.replied
    rw [hr] at this
    cases this
    rfl
  subst hrr
  subst hres'
  exact ⟨ipamResult.IPs.map (fun ipc : IPConfig => { ipc with Interface := some 0 }),
    translatedIPs env r'.Interfaces.length 0 r'.Interfaces, rfl,
    translatedIPs_forall₂ env _ _ 0 hs.addresses⟩

/-- C6 at the reply with the one address `10.0.0.5/24`, gateway `10.0.0.1`. -/
theorem cmdAdd_translated_address_witness :
    (cmdAdd (world {} replyOneAddress) (argsFor docSelf)).ret = none ∧
    Event.remoteAdd requestSelf ∈ (cmdAdd (world {} replyOneAddress) (argsFor docSelf)).trace ∧
    Event.print resultOneAddress ∈
      (cmdAdd (world {} replyOneAddress) (argsFor docSelf)).trace ∧
    ∃ allocated translated, resultOneAddress.IPs = allocated ++ translated ∧
      List.Forall₂
        (fun ip cfg => ∃ ipAddr ipNet,
          parseCIDRText ip.Address = .ok (ipAddr, ipNet) ∧
          cfg.Address = { IP := ipAddr, Mask := ipNet.Mask } ∧
          cfg.Version = (if ip.Version = IPVersion.IPV6 then "6" else "4") ∧
          cfg.Gateway = (if ip.Gateway = "" then [] else parseIPText ip.Gateway))
        (replyOneAddress.Interfaces.flatMap (fun iface => iface.IpAddresses)) translated :=
  ⟨by decide, by decide, by decide,
   cmdAdd_translated_address.1 (world {} replyOneAddress) (argsFor docSelf) requestSelf
     replyOneAddress resultOneAddress (by decide) (by decide) rfl (by decide)⟩

/-- C7: in self-allocation mode, a reply whose route has destination
`10.1.0.0/16` and gateway text `not-an-ip` does not fail `cmdAdd`: it returns
nil and prints a result whose route has that destination and a nil gateway. -/
theorem cmdAdd_bad_route_gateway_accepted :
    parseIPText "not-an-ip" = [] ∧
    (cmdAdd (world {} replyBadRouteGateway) (argsFor docSelf)).ret = none ∧
    printed (cmdAdd (world {} replyBadRouteGateway) (argsFor docSelf)).trace =
      [{ CNIVersion := "0.3.1",
         Routes := [{ Dst := { IP := [10, 1, 0, 0], Mask := [255, 255, 0, 0] }, GW := [] }] }] := by
  refine ⟨by decide, by decide, by decide⟩

/-- C8: in a successful add, when the reply has a DNS entry the printed
result's DNS block is the last entry of the reply, field for field; when the
reply has none it is the DNS block of the allocator's converted result, or the
empty block when no allocator was called. -/
theorem cmdAdd_dns_last_write_wins (env : Env) (args : CmdArgs) (req : CNIRequest)
    (r : CNIReply) (res : Result)
    (hok : (cmdAdd env args).ret = none)
    (hreq : Event.remoteAdd req ∈ (cmdAdd env args).trace)
    (hr : env.remoteAdd req = .ok r)
    (hres : Event.print res ∈ (cmdAdd env args).trace) :
    (∀ dns, r.Dns.getLast? = some dns →
      res.DNS = { Nameservers := dns.Nameservers, Domain := dns.Domain,
                  Search := dns.Search, Options := dns.Options }) ∧
    (r.Dns = [] →
      (∀ t b ipamRequest ipamResult, Event.execAdd t b ∈ (cmdAdd env args).trace →
        env.execAdd t b = .ok ipamRequest →
        env.newResultFromResult ipamRequest = .ok ipamResult → res.DNS = ipamResult.DNS) ∧
      ((∀ t b, Event.execAdd t b ∉ (cmdAdd env args).trace) → res.DNS = {})) := by
  obtain ⟨conf, k8Arg, ipamResult', r', events, hs⟩ := cmdAdd_ret_none env args hok
  have hreq' := hs.unique.1 req hreq
  have hres' := hs.unique.2 res hres
  subst hreq'
  have hrr : r' = r := by
    have := hs.replied
    rw [hr] at this
    cases this
    rfl
  subst hrr
  subst hres'
  refine ⟨?_, ?_⟩
  · intro dns hlast
    exact lastDns_getLast _ _ _ hlast
  · intro hnil
    have hdns : (finalResult env conf ipamResult' r').DNS = ipamResult'.DNS := by
      simp [finalResult, hnil, lastDns]
    rw [hdns]
    refine ⟨?_, ?_⟩
    · intro t b ipamRequest ipamResult hmem he hn
      rw [hs.execAdd_mem] at hmem
      rcases hs.allocated with ⟨_, _, hev⟩ | ⟨_, _, hev, raw, he', hn'⟩
      · rw [hev] at hmem; cases hmem
      · rw [hev] at hmem
        simp only [List.mem_singleton, Event.execAdd.injEq] at hmem
        obtain ⟨rfl, rfl⟩ := hmem
        rw [he'] at he
        cases he
        rw [hn'] at hn
        cases hn
        rfl
    · intro hnone
      rcases hs.allocated with ⟨_, hres, _⟩ | ⟨_, _, hev, _⟩
      · rw [hres]
      · exfalso
        apply hnone conf.IPAM.Type_ args.StdinData
        rw [hs.execAdd_mem, hev]
        exact List.mem_singleton_self _

/-- C8 at a reply with two DNS entries, in self-allocation mode: the printed
DNS block is the second entry. -/
theorem cmdAdd_dns_last_write_wins_witness :
    (cmdAdd (world {} replyTwoDns) (argsFor docSelf)).ret = none ∧
    Event.remoteAdd requestSelf ∈ (cmdAdd (world {} replyTwoDns) (argsFor docSelf)).trace ∧
    Event.print resultTwoDns ∈ (cmdAdd (world {} replyTwoDns) (argsFor docSelf)).trace ∧
    resultTwoDns.DNS =
      { Nameservers := ["10.0.0.3"], Domain := "second.example", Search := [], Options := [] } :=
  ⟨by decide, by decide, by decide,
   (cmdAdd_dns_last_write_wins (world {} replyTwoDns) (argsFor docSelf) requestSelf replyTwoDns
      resultTwoDns (by decide) (by decide) rfl (by decide)).1
      { Nameservers := ["10.0.0.3"], Domain := "second.example", Search := [], Options := [] }
      rfl⟩

/-- C9, counterexample: for a document whose `ipamType` is `nimbess` and whose
`ipam.type` is `host-local`, `cmdAdd` calls the allocator, with `host-local`,
and sends a request whose mode identifier is `host-local`. -/
theorem cmdAdd_mode_not_ipamType_field :
    parseCNIConfig unmarshalTable docTwoModes = .ok confTwoModes ∧
    confTwoModes.IpamType = "nimbess" ∧
    Event.execAdd "host-local" docTwoModes ∈
      (cmdAdd (world { IPs := [allocatedIP] } replyOneAddress) (argsFor docTwoModes)).trace ∧
    Event.remoteAdd requestHostLocal ∈
      (cmdAdd (world { IPs := [allocatedIP] } replyOneAddress) (argsFor docTwoModes)).trace ∧
    requestHostLocal.IpamType ≠ confTwoModes.IpamType := by
  refine ⟨rfl, rfl, by decide, by decide, by decide⟩

/-- C9, amended: when the configuration parses to `conf`, every request
`cmdAdd` sends carries `conf.IPAM.Type` (the document's `ipam.type`) as mode
identifier, every allocator add and release call is made with `conf.IPAM.Type`
and the raw configuration bytes, and the allocator's add is called exactly when
logging and argument loading succeed and `conf.IPAM.Type` is not `nimbess`. -/
theorem cmdAdd_mode_is_ipam_type (env : Env) (args : CmdArgs) (conf : nimbessConfig)
    (hconf : parseCNIConfig env.unmarshal args.StdinData = .ok conf) :
    (∀ req, Event.remoteAdd req ∈ (cmdAdd env args).trace → req.IpamType = conf.IPAM.Type_) ∧
    (∀ t b, Event.execAdd t b ∈ (cmdAdd env args).trace →
      t = conf.IPAM.Type_ ∧ b = args.StdinData ∧ conf.IPAM.Type_ ≠ "nimbess") ∧
    (∀ t b, Event.execDel t b ∈ (cmdAdd env args).trace →
      t = conf.IPAM.Type_ ∧ b = args.StdinData) ∧
    ((initLog env conf.LogFile).1 = none → (∃ k8Arg, env.loadArgs args.Args = .ok k8Arg) →
      conf.IPAM.Type_ ≠ "nimbess" →
      Event.execAdd conf.IPAM.Type_ args.StdinData ∈ (cmdAdd env args).trace) := by
  refine ⟨?_, ?_, ?_, ?_⟩
  · intro req hmem
    exact cmdAdd_trace_forall (fun ev => ∀ req, ev = Event.remoteAdd req →
        req.IpamType = conf.IPAM.Type_) env args conf hconf
      (by intro _ _ h; cases h) (by intro _ _ h; cases h) (by intro _ h; cases h)
      (by intro _ _ h; cases h) (by intro _ _ h; cases h) (by intro _ h; cases h)
      (by intro k8Arg req h; cases h; rfl) (by intro _ _ h; cases h) _ hmem req rfl
  · intro t b hmem
    exact cmdAdd_trace_forall (fun ev => ∀ t b, ev = Event.execAdd t b →
        t = conf.IPAM.Type_ ∧ b = args.StdinData ∧ conf.IPAM.Type_ ≠ "nimbess") env args conf
      hconf
      (by intro _ _ _ h; cases h) (by intro hm _ _ h; cases h; exact ⟨rfl, rfl, hm⟩)
      (by intro _ _ h; cases h)
      (by intro _ _ _ h; cases h) (by intro _ _ _ h; cases h) (by intro _ _ h; cases h)
      (by intro _ _ _ h; cases h) (by intro _ _ _ h; cases h) _ hmem t b rfl
  · intro t b hmem
    exact cmdAdd_trace_forall (fun ev => ∀ t b, ev = Event.execDel t b →
        t = conf.IPAM.Type_ ∧ b = args.StdinData) env args conf hconf
      (by intro _ _ _ h; cases h) (by intro _ _ _ h; cases h)
      (by intro _ _ h; cases h; exact ⟨rfl, rfl⟩)
      (by intro _ _ _ h; cases h) (by intro _ _ _ h; cases h) (by intro _ _ h; cases h)
      (by intro _ _ _ h; cases h) (by intro _ _ _ h; cases h) _ hmem t b rfl
  · intro hlog hload hmode
    obtain ⟨k8Arg, hk⟩ := hload
    unfold cmdAdd
    rw [hconf]
    simp only
    rcases hl : initLog env conf.LogFile with ⟨_ | e, opened⟩
    · simp only
      rw [hk]
      simp only
      apply addDeferred_trace_mono
      have := addWorkflow_execAdd_mem env args conf (addRequest args conf k8Arg)
        { CNIVersion := conf.CNIVersion } opened (by rw [addRequest_ipamType]; exact hmode)
      rw [addRequest_ipamType] at this
      exact this
    · rw [hl] at hlog
      cases hlog

/-- C9, amended, at the document whose `ipamType` is `nimbess` and whose
`ipam.type` is `host-local`. -/
theorem cmdAdd_mode_is_ipam_type_witness :
    parseCNIConfig (world { IPs := [allocatedIP] } replyOneAddress).unmarshal
      (argsFor docTwoModes).StdinData = .ok confTwoModes ∧
    ∀ req, Event.remoteAdd req ∈
        (cmdAdd (world { IPs := [allocatedIP] } replyOneAddress) (argsFor docTwoModes)).trace →
      req.IpamType = "host-local" :=
  ⟨rfl,
   (cmdAdd_mode_is_ipam_type (world { IPs := [allocatedIP] } replyOneAddress)
      (argsFor docTwoModes) confTwoModes rfl).1⟩

/-- C10: for a configuration whose `ipamType` and `ipam.type` are both
`host-local`, `cmdDel` calls the release operation after a successful remote
`Delete` with the empty mode identifier, not with `host-local`; where no
allocator goes by the empty name, `cmdDel` then returns that call's error. -/
theorem cmdDel_releases_with_empty_mode :
    parseCNIConfig unmarshalTable docBothModes = .ok confBothModes ∧
    released (cmdDel (world {} {}) (argsFor docBothModes)).trace = [("", docBothModes)] ∧
    (cmdDel (world {} {}) (argsFor docBothModes)).ret =
      some "failed to find plugin \"\" in path" := by
  refine ⟨rfl, by decide, by decide⟩

end Nimbess
